import Mathlib

/-!
Verification of the attention computation engine of this repository
(scaled dot-product self-attention, masked self-attention, multi-head
attention) against its natural-language specification.

The numeric code is embedded shallowly over `Matrix (Fin m) (Fin n) ℝ`:
each source file's attention function becomes a Lean definition in its own
namespace, mirroring that file line by line.  The numerically-stable
row-wise softmax (identical lines in all three files, and described by the
spec as one shared "Stable Softmax" collaborator) is embedded once as
`stableSoftmax` and used by all three.

A second, untyped model over `List (List ℝ)` (`namespace NumpyModel`)
mirrors the runtime shape semantics of the numpy operations (`np.dot`
inner-dimension checks, in-place broadcasting of `+=`, broadcasting of
`np.where`) and is used for the error-handling claims, which are about
dynamic shape failures that the dependently-typed model cannot express.
-/

open Matrix

/-! ## Shared numerically-stable softmax

Embeds the identical softmax lines of the three source files:
`53-Implement Self-Attention Mechanism.py` lines 61-70,
`107-Implement Masked Self-Attention.py` lines 57-63,
`94-Implement Multi-Head Attention.py` lines 43-46 and 110-118
(`np.exp(S - np.max(S, axis=-1, keepdims=True))`, then division by the
row sum). -/

/-- The maximum of a row vector (`np.max(..., axis=-1, keepdims=True)`);
needs the row to be nonempty, as numpy does. -/
noncomputable def rowMax {n : ℕ} [NeZero n] (v : Fin n → ℝ) : ℝ :=
  Finset.univ.sup' (Finset.univ_nonempty_iff.mpr ⟨⟨0, Nat.pos_of_ne_zero (NeZero.ne n)⟩⟩) v

/-- One row of the numerically-stable softmax: subtract the row max before
exponentiating, then divide by the row sum of exponentials. -/
noncomputable def stableSoftmaxRow {n : ℕ} [NeZero n] (v : Fin n → ℝ) : Fin n → ℝ :=
  fun j => Real.exp (v j - rowMax v) / ∑ k, Real.exp (v k - rowMax v)

/-- Row-wise numerically-stable softmax of a score matrix: the
`attention_weights` computation shared by all three source files. -/
noncomputable def stableSoftmax {m n : ℕ} [NeZero n] (S : Matrix (Fin m) (Fin n) ℝ) :
    Matrix (Fin m) (Fin n) ℝ :=
  Matrix.of fun i => stableSoftmaxRow (S i)

/-! ## File `src/numpy/53-Implement Self-Attention Mechanism.py` -/

namespace SelfAttn53

/-- Lines 44-59: `d_k = K.shape[-1]; np.dot(Q, K.T) / np.sqrt(d_k)`.
`d_k` is the column count of `K`. -/
noncomputable def scaled_dot_product {m n dk : ℕ} (Q : Matrix (Fin m) (Fin dk) ℝ)
    (K : Matrix (Fin n) (Fin dk) ℝ) : Matrix (Fin m) (Fin n) ℝ :=
  Matrix.of fun i j => (Q * K.transpose) i j / Real.sqrt (dk : ℝ)

/-- Lines 26-78: `self_attention(Q, K, V)`: scaled scores, stable row
softmax, then `np.dot(attention_weights, V)`. -/
noncomputable def self_attention {m n dk dv : ℕ} [NeZero n] (Q : Matrix (Fin m) (Fin dk) ℝ)
    (K : Matrix (Fin n) (Fin dk) ℝ) (V : Matrix (Fin n) (Fin dv) ℝ) :
    Matrix (Fin m) (Fin dv) ℝ :=
  stableSoftmax (scaled_dot_product Q K) * V

end SelfAttn53

/-! ## Spec-side reference definition (for the refinement claim C1)

Modelled from the spec's words: "returns `softmax(Q·K^T / sqrt(d_k)) · V`,
where the softmax is applied row-wise" — the plain mathematical softmax,
with no max-subtraction. -/

/-- The plain (textbook) row softmax `exp(v_j) / Σ_k exp(v_k)`. -/
noncomputable def specSoftmaxRow {n : ℕ} (v : Fin n → ℝ) : Fin n → ℝ :=
  fun j => Real.exp (v j) / ∑ k, Real.exp (v k)

/-- The spec's formula `softmax(Q·K^T / sqrt(d_k)) · V` with the plain
row-wise softmax, `d_k` being the column count of `K`. -/
noncomputable def specAttention {m n dk dv : ℕ} (Q : Matrix (Fin m) (Fin dk) ℝ)
    (K : Matrix (Fin n) (Fin dk) ℝ) (V : Matrix (Fin n) (Fin dv) ℝ) :
    Matrix (Fin m) (Fin dv) ℝ :=
  (Matrix.of fun i => specSoftmaxRow fun j => (Q * K.transpose) i j / Real.sqrt (dk : ℝ)) * V

/-! ## Basic softmax lemmas -/

lemma univ_nonempty_of_neZero {n : ℕ} [NeZero n] :
    (Finset.univ : Finset (Fin n)).Nonempty :=
  Finset.univ_nonempty_iff.mpr ⟨⟨0, Nat.pos_of_ne_zero (NeZero.ne n)⟩⟩

lemma sum_exp_pos {n : ℕ} [NeZero n] (v : Fin n → ℝ) :
    (0:ℝ) < ∑ k, Real.exp (v k) :=
  Finset.sum_pos (fun _ _ => Real.exp_pos _) univ_nonempty_of_neZero

/-- Max-subtraction does not change the softmax: the stable softmax row
equals the plain softmax row. -/
lemma stableSoftmaxRow_eq_spec {n : ℕ} [NeZero n] (v : Fin n → ℝ) :
    stableSoftmaxRow v = specSoftmaxRow v := by
  funext j
  unfold stableSoftmaxRow specSoftmaxRow
  have hE : Real.exp (rowMax v) ≠ 0 := Real.exp_ne_zero _
  have hS : (0:ℝ) < ∑ k, Real.exp (v k) := sum_exp_pos v
  simp only [Real.exp_sub]
  rw [← Finset.sum_div]
  field_simp

lemma stableSoftmaxRow_nonneg {n : ℕ} [NeZero n] (v : Fin n → ℝ) (j : Fin n) :
    0 ≤ stableSoftmaxRow v j :=
  div_nonneg (Real.exp_pos _).le (Finset.sum_nonneg fun _ _ => (Real.exp_pos _).le)

lemma stableSoftmaxRow_sum_one {n : ℕ} [NeZero n] (v : Fin n → ℝ) :
    ∑ j, stableSoftmaxRow v j = 1 := by
  unfold stableSoftmaxRow
  rw [← Finset.sum_div]
  exact div_self (sum_exp_pos _).ne'

/-- Claim C5: every softmax normalization in the attention engine is row-stochastic:
for any score matrix, every entry of `stableSoftmax` is non-negative and
every row sums exactly to 1 (hence certainly to within 1e-6).  All three
operations (single-head, masked, multi-head) compute their attention
weights as `stableSoftmax` of their (possibly masked) scores, so the
invariant holds after every softmax normalization. -/
theorem claim_C5_softmax_row_stochastic {m n : ℕ} [NeZero n]
    (S : Matrix (Fin m) (Fin n) ℝ) (i : Fin m) :
    (∀ j, 0 ≤ stableSoftmax S i j) ∧ ∑ j, stableSoftmax S i j = 1 :=
  ⟨fun j => stableSoftmaxRow_nonneg (S i) j, stableSoftmaxRow_sum_one (S i)⟩

/-- Witness for C5 at the concrete score matrix `!![1, 0; 0, 1]`. -/
theorem claim_C5_witness :
    (∀ j, 0 ≤ stableSoftmax !![(1:ℝ), 0; 0, 1] 0 j) ∧
      ∑ j, stableSoftmax !![(1:ℝ), 0; 0, 1] 0 j = 1 :=
  claim_C5_softmax_row_stochastic !![(1:ℝ), 0; 0, 1] 0

/-! ## File `src/numpy/94-Implement Multi-Head Attention.py` -/

namespace MultiHead94

/-- Lines 35-41: `d_k = K.shape[-1]; np.dot(Q, K.T) / np.sqrt(d_k)`. -/
noncomputable def scaled_dot_product {m n dk : ℕ} (Q : Matrix (Fin m) (Fin dk) ℝ)
    (K : Matrix (Fin n) (Fin dk) ℝ) : Matrix (Fin m) (Fin n) ℝ :=
  Matrix.of fun i j => (Q * K.transpose) i j / Real.sqrt (dk : ℝ)

/-- Lines 22-52: `self_attention(Q, K, V)` — the single-head primitive of
the multi-head file (same algorithm as file 53). -/
noncomputable def self_attention {m n dk dv : ℕ} [NeZero n] (Q : Matrix (Fin m) (Fin dk) ℝ)
    (K : Matrix (Fin n) (Fin dk) ℝ) (V : Matrix (Fin n) (Fin dv) ℝ) :
    Matrix (Fin m) (Fin dv) ℝ :=
  stableSoftmax (scaled_dot_product Q K) * V

lemma head_col_lt {H dk : ℕ} (h : Fin H) (j : Fin dk) : h.val * dk + j.val < H * dk := by
  have h1 : h.val * dk + j.val < (h.val + 1) * dk := by
    rw [Nat.succ_mul]
    exact Nat.add_lt_add_left j.isLt _
  exact lt_of_lt_of_le h1 (Nat.mul_le_mul_right dk h.isLt)

/-- The model-dimension column that head `h` owns at within-head offset
`j`: column `h * d_k + j`. -/
def headCol {dm H dk : ℕ} (hd : dm = H * dk) (h : Fin H) (j : Fin dk) : Fin dm :=
  ⟨h.val * dk + j.val, hd ▸ head_col_lt h j⟩

lemma div_dk_lt {dm H dk : ℕ} (hd : dm = H * dk) (c : Fin dm) : c.val / dk < H := by
  have hc : c.val < H * dk := hd ▸ c.isLt
  rcases Nat.eq_zero_or_pos dk with h0 | hpos
  · subst h0; simp at hc
  · exact Nat.div_lt_of_lt_mul (by rwa [Nat.mul_comm] at hc)

lemma mod_dk_lt {dm H dk : ℕ} (hd : dm = H * dk) (c : Fin dm) : c.val % dk < dk := by
  have hc : c.val < H * dk := hd ▸ c.isLt
  have hdk : 0 < dk := by
    rcases Nat.eq_zero_or_pos dk with h0 | hpos
    · subst h0; simp at hc
    · exact hpos
  exact Nat.mod_lt _ hdk

/-- Lines 91-93: `A.reshape(seq_len, n_heads, d_k).transpose(1, 0, 2)`.
In C-order, entry `[h][i][j]` of the split tensor is `A[i][h*d_k + j]`:
head `h` receives the contiguous column block `[h*d_k, (h+1)*d_k)`. -/
def splitHeads {seq dm : ℕ} (A : Matrix (Fin seq) (Fin dm) ℝ) (H dk : ℕ)
    (hd : dm = H * dk) : Fin H → Matrix (Fin seq) (Fin dk) ℝ :=
  fun h => Matrix.of fun i j => A i (headCol hd h j)

/-- Line 139: `T.transpose(1, 0, 2).reshape(seq_len, d_model)`.  In
C-order, entry `[i][c]` of the merged matrix is `T[c / d_k][i][c % d_k]`. -/
def mergeHeads {seq dm H dk : ℕ} (hd : dm = H * dk)
    (T : Fin H → Matrix (Fin seq) (Fin dk) ℝ) : Matrix (Fin seq) (Fin dm) ℝ :=
  Matrix.of fun i c => T ⟨c.val / dk, div_dk_lt hd c⟩ i ⟨c.val % dk, mod_dk_lt hd c⟩

lemma dm_eq_heads_mul {dm H : ℕ} (hdiv : dm % H = 0) : dm = H * (dm / H) :=
  (Nat.mul_div_cancel' (Nat.dvd_of_mod_eq_zero hdiv)).symm

/-- Lines 80-139 of `multi_head_attention`, after validation: split into
heads (lines 91-93), batched per-head scaled dot-product scores
(line 108), stable softmax along the last axis (lines 116-118), weighted
sum against the per-head values (line 128), and merge (line 139).  The
batched `np.matmul` over the leading head axis acts on each head slice
independently, so the per-head computation is written per head. -/
noncomputable def attention_heads {seq dm : ℕ} [NeZero seq]
    (Q K V : Matrix (Fin seq) (Fin dm) ℝ) (H : ℕ) (hdiv : dm % H = 0) :
    Matrix (Fin seq) (Fin dm) ℝ :=
  mergeHeads (dm_eq_heads_mul hdiv) fun h =>
    stableSoftmax
        (scaled_dot_product
          (splitHeads Q H (dm / H) (dm_eq_heads_mul hdiv) h)
          (splitHeads K H (dm / H) (dm_eq_heads_mul hdiv) h)) *
      splitHeads V H (dm / H) (dm_eq_heads_mul hdiv) h

/-- The error raised at lines 74-75 when `d_model % n_heads != 0`
(spec name: ConfigurationError). -/
def configurationErrorMsg : String := "ConfigurationError: d_model must be divisible by n_heads"

/-- Lines 54-145: `multi_head_attention(Q, K, V, n_heads)` — validate
`d_model % n_heads == 0` (lines 73-75, raising before any numeric work),
then split / per-head attention / merge. -/
noncomputable def multi_head_attention {seq dm : ℕ} [NeZero seq]
    (Q K V : Matrix (Fin seq) (Fin dm) ℝ) (n_heads : ℕ) :
    Except String (Matrix (Fin seq) (Fin dm) ℝ) :=
  if hdiv : dm % n_heads = 0 then
    Except.ok (attention_heads Q K V n_heads hdiv)
  else Except.error configurationErrorMsg

end MultiHead94

/-! ## Claims about single-head attention (C1, C7) -/

/-- Claim C1: for every `Q : (m, d_k)`, `K : (n, d_k)`, `V : (n, d_v)`, the
single-head attention of file 53 and the single-head primitive of file 94
both return exactly `softmax(Q·K^T / sqrt(d_k)) · V` with the plain
row-wise softmax and the `1/sqrt(d_k)` scale applied before the softmax
(`d_k` = column count of `K`): the max-subtraction trick does not change
the result.  The concrete `Q=K=V=[[1,0],[0,1],[1,1]]` scenario is the
witness below. -/
theorem claim_C1_attention_is_softmax_formula {m n dk dv : ℕ} [NeZero n]
    (Q : Matrix (Fin m) (Fin dk) ℝ) (K : Matrix (Fin n) (Fin dk) ℝ)
    (V : Matrix (Fin n) (Fin dv) ℝ) :
    SelfAttn53.self_attention Q K V = specAttention Q K V ∧
      MultiHead94.self_attention Q K V = specAttention Q K V := by
  constructor
  · unfold SelfAttn53.self_attention specAttention
    congr 1
    ext i j
    exact congrFun (stableSoftmaxRow_eq_spec (SelfAttn53.scaled_dot_product Q K i)) j
  · unfold MultiHead94.self_attention specAttention
    congr 1
    ext i j
    exact congrFun (stableSoftmaxRow_eq_spec (MultiHead94.scaled_dot_product Q K i)) j

/-- Witness for C1 at the spec's concrete scenario
`Q = K = V = [[1,0],[0,1],[1,1]]` (shape 3×2, `d_k = 2`). -/
theorem claim_C1_witness :
    SelfAttn53.self_attention !![(1:ℝ), 0; 0, 1; 1, 1] !![(1:ℝ), 0; 0, 1; 1, 1]
        !![(1:ℝ), 0; 0, 1; 1, 1] =
      specAttention !![(1:ℝ), 0; 0, 1; 1, 1] !![(1:ℝ), 0; 0, 1; 1, 1]
        !![(1:ℝ), 0; 0, 1; 1, 1] ∧
    MultiHead94.self_attention !![(1:ℝ), 0; 0, 1; 1, 1] !![(1:ℝ), 0; 0, 1; 1, 1]
        !![(1:ℝ), 0; 0, 1; 1, 1] =
      specAttention !![(1:ℝ), 0; 0, 1; 1, 1] !![(1:ℝ), 0; 0, 1; 1, 1]
        !![(1:ℝ), 0; 0, 1; 1, 1] :=
  claim_C1_attention_is_softmax_formula _ _ _

/-- Claim C7: scale invariance — for `c > 0`, replacing `Q` by `Q/c` and
`K` by `c·K` leaves the single-head attention output unchanged, because
`(Q/c)·(c·K)^T = Q·K^T`. -/
theorem claim_C7_scale_invariance {m n dk dv : ℕ} [NeZero n]
    (Q : Matrix (Fin m) (Fin dk) ℝ) (K : Matrix (Fin n) (Fin dk) ℝ)
    (V : Matrix (Fin n) (Fin dv) ℝ) (c : ℝ) (hc : 0 < c) :
    SelfAttn53.self_attention (c⁻¹ • Q) (c • K) V = SelfAttn53.self_attention Q K V := by
  have hQK : (c⁻¹ • Q) * (c • K).transpose = Q * K.transpose := by
    rw [Matrix.transpose_smul, Matrix.smul_mul, Matrix.mul_smul, smul_smul,
      inv_mul_cancel₀ hc.ne', one_smul]
  unfold SelfAttn53.self_attention SelfAttn53.scaled_dot_product
  rw [hQK]

/-- Witness for C7 at `c = 2`, `Q = K = V = [[1]]`. -/
theorem claim_C7_witness :
    SelfAttn53.self_attention ((2:ℝ)⁻¹ • !![(1:ℝ)]) ((2:ℝ) • !![(1:ℝ)]) !![(1:ℝ)] =
      SelfAttn53.self_attention !![(1:ℝ)] !![(1:ℝ)] !![(1:ℝ)] :=
  claim_C7_scale_invariance !![(1:ℝ)] !![(1:ℝ)] !![(1:ℝ)] 2 (by norm_num)

/-! ## Claims about multi-head attention (C2, C4, C6) -/

lemma mergeHeads_headCol {seq dm H dk : ℕ} (hd hd2 : dm = H * dk)
    (T : Fin H → Matrix (Fin seq) (Fin dk) ℝ) (i : Fin seq) (h : Fin H) (j : Fin dk) :
    MultiHead94.mergeHeads hd2 T i (MultiHead94.headCol hd h j) = T h i j := by
  unfold MultiHead94.mergeHeads MultiHead94.headCol
  have hdkpos : 0 < dk := j.pos
  have e1 : (h.val * dk + j.val) / dk = h.val := by
    rw [Nat.mul_comm, Nat.mul_add_div hdkpos, Nat.div_eq_of_lt j.isLt, Nat.add_zero]
  have e2 : (h.val * dk + j.val) % dk = j.val := by
    rw [Nat.add_comm, Nat.add_mul_mod_self_right, Nat.mod_eq_of_lt j.isLt]
  simp only [Matrix.of_apply, e1, e2, Fin.eta]

/-- Claim C2: when `d_model = H * d_k`, the multi-head attention output
restricted to the column block of head `h` (columns `[h*d_k, (h+1)*d_k)`,
i.e. `headCol hd h j`) equals the single-head scaled dot-product attention
(no mask) applied to the head-`h` contiguous column slices of `Q`, `K`,
`V`.  Each head's block of the output is thus a function of that head's
slices alone, so the heads are independent and any computation order
yields the identical result. -/
theorem claim_C2_multi_head_refines_single_head {seq dm : ℕ} [NeZero seq]
    (Q K V : Matrix (Fin seq) (Fin dm) ℝ) (H dk : ℕ) (hd : dm = H * dk)
    (h : Fin H) (j : Fin dk) (i : Fin seq) :
    ∃ O, MultiHead94.multi_head_attention Q K V H = Except.ok O ∧
      O i (MultiHead94.headCol hd h j) =
        MultiHead94.self_attention
          (MultiHead94.splitHeads Q H dk hd h)
          (MultiHead94.splitHeads K H dk hd h)
          (MultiHead94.splitHeads V H dk hd h) i j := by
  have hH : 0 < H := h.pos
  have hdk : dk = dm / H := by rw [hd, Nat.mul_div_cancel_left dk hH]
  subst hdk
  have hdiv : dm % H = 0 := by rw [hd]; exact Nat.mul_mod_right H _
  refine ⟨MultiHead94.attention_heads Q K V H hdiv, ?_, ?_⟩
  · unfold MultiHead94.multi_head_attention
    rw [dif_pos hdiv]
  · unfold MultiHead94.attention_heads
    rw [mergeHeads_headCol]
    rfl

/-- Witness for C2 at `seq = 1`, `d_model = 2`, `H = 2`, `d_k = 1`,
`Q = K = V = [[1, 2]]`, head 0, offset 0, row 0. -/
theorem claim_C2_witness :
    ∃ O : Matrix (Fin 1) (Fin 2) ℝ,
      MultiHead94.multi_head_attention !![(1:ℝ), 2] !![(1:ℝ), 2] !![(1:ℝ), 2] 2 =
        Except.ok O ∧
      O 0 (@MultiHead94.headCol 2 2 1 rfl 0 0) =
        MultiHead94.self_attention
          (MultiHead94.splitHeads !![(1:ℝ), 2] 2 1 rfl 0)
          (MultiHead94.splitHeads !![(1:ℝ), 2] 2 1 rfl 0)
          (MultiHead94.splitHeads !![(1:ℝ), 2] 2 1 rfl 0) 0 0 :=
  claim_C2_multi_head_refines_single_head !![(1:ℝ), 2] !![(1:ℝ), 2] !![(1:ℝ), 2] 2 1 rfl 0 0 0

/-- Claim C4: merging the per-head split of a `(seq_len, d_model)` matrix
(without any computation in between) reproduces the matrix exactly — the
merge of line 139 is the exact inverse of the split of lines 91-93. -/
theorem claim_C4_split_merge_roundtrip {seq dm H dk : ℕ} (hd : dm = H * dk)
    (Q : Matrix (Fin seq) (Fin dm) ℝ) :
    MultiHead94.mergeHeads hd (MultiHead94.splitHeads Q H dk hd) = Q := by
  ext i c
  unfold MultiHead94.mergeHeads MultiHead94.splitHeads MultiHead94.headCol
  simp only [Matrix.of_apply]
  congr 1
  apply Fin.ext
  show c.val / dk * dk + c.val % dk = c.val
  rw [Nat.mul_comm, Nat.div_add_mod]

/-- Witness for C4 at `Q = [[1, 2]]` split into 2 heads of width 1. -/
theorem claim_C4_witness :
    MultiHead94.mergeHeads rfl (MultiHead94.splitHeads !![(1:ℝ), 2] 2 1 rfl) = !![(1:ℝ), 2] :=
  @claim_C4_split_merge_roundtrip 1 2 2 1 rfl !![(1:ℝ), 2]

/-- Claim C6: `multi_head_attention` fails with the ConfigurationError if
and only if `d_model % n_heads ≠ 0`; the failure depends only on the
dimensions, not on any matrix entry (it happens before any numeric
computation), and on success the output has the same `(seq_len, d_model)`
shape as `Q` (enforced by the result type).  The `d_model = 16` instances
with `n_heads = 5` (fails) and `n_heads = 4` (succeeds) are the witness. -/
theorem claim_C6_head_count_validation {seq dm : ℕ} [NeZero seq]
    (Q K V : Matrix (Fin seq) (Fin dm) ℝ) (H : ℕ) :
    (dm % H ≠ 0 → ∀ Q2 K2 V2 : Matrix (Fin seq) (Fin dm) ℝ,
        MultiHead94.multi_head_attention Q2 K2 V2 H =
          Except.error MultiHead94.configurationErrorMsg) ∧
    (dm % H = 0 → ∃ O : Matrix (Fin seq) (Fin dm) ℝ,
        MultiHead94.multi_head_attention Q K V H = Except.ok O) := by
  constructor
  · intro hne Q2 K2 V2
    unfold MultiHead94.multi_head_attention
    rw [dif_neg hne]
  · intro hdiv
    refine ⟨MultiHead94.attention_heads Q K V H hdiv, ?_⟩
    unfold MultiHead94.multi_head_attention
    rw [dif_pos hdiv]

/-- Witness for C6: with `d_model = 16`, `n_heads = 5` fails with the
ConfigurationError and `n_heads = 4` succeeds, returning a
`(seq_len, 16)` matrix. -/
theorem claim_C6_witness :
    (MultiHead94.multi_head_attention (0 : Matrix (Fin 1) (Fin 16) ℝ) 0 0 5 =
        Except.error MultiHead94.configurationErrorMsg) ∧
      ∃ O : Matrix (Fin 1) (Fin 16) ℝ,
        MultiHead94.multi_head_attention (0 : Matrix (Fin 1) (Fin 16) ℝ) 0 0 4 = Except.ok O :=
  ⟨(claim_C6_head_count_validation 0 0 0 5).1 (by norm_num) 0 0 0,
   (claim_C6_head_count_validation 0 0 0 4).2 (by norm_num)⟩

/-! ## File `src/numpy/107-Implement Masked Self-Attention.py` -/

namespace MaskedAttn107

/-- Lines 34-42: `d_k = K.shape[-1]; np.dot(Q, K.T) / np.sqrt(d_k)`. -/
noncomputable def scaled_dot_product {m n dk : ℕ} (Q : Matrix (Fin m) (Fin dk) ℝ)
    (K : Matrix (Fin n) (Fin dk) ℝ) : Matrix (Fin m) (Fin n) ℝ :=
  Matrix.of fun i j => (Q * K.transpose) i j / Real.sqrt (dk : ℝ)

/-- Lines 45-55: mask classification and application.  If any mask entry
is below `-1e4` (`np.any(mask < -1e4)`) the mask is additive and is added
to the scores; otherwise it is binary and `np.where(mask == 0, -1e9, S)`
rewrites every score whose mask entry is 0 to `-1e9`. -/
noncomputable def applyMask {m n : ℕ} (S mask : Matrix (Fin m) (Fin n) ℝ) :
    Matrix (Fin m) (Fin n) ℝ :=
  if ∃ i j, mask i j < -10000 then S + mask
  else Matrix.of fun i j => if mask i j = 0 then (-1000000000 : ℝ) else S i j

/-- Lines 16-71: `masked_attention(Q, K, V, mask=None)`: scaled scores,
optional mask application, stable row softmax, weighted sum of values. -/
noncomputable def masked_attention {m n dk dv : ℕ} [NeZero n] (Q : Matrix (Fin m) (Fin dk) ℝ)
    (K : Matrix (Fin n) (Fin dk) ℝ) (V : Matrix (Fin n) (Fin dv) ℝ)
    (mask : Option (Matrix (Fin m) (Fin n) ℝ)) : Matrix (Fin m) (Fin dv) ℝ :=
  match mask with
  | none => stableSoftmax (scaled_dot_product Q K) * V
  | some M => stableSoftmax (applyMask (scaled_dot_product Q K) M) * V

end MaskedAttn107

/-! ## Claims about masked attention (C3, C10) -/

/-- Claim C3: a supplied mask is classified by scanning for an entry below
the threshold `-1e4`: if one exists the mask is additive and the masked
scores are `S + mask` elementwise; otherwise it is binary and every score
whose mask entry equals 0 is rewritten to `-1e9`, all others unchanged. -/
theorem claim_C3_mask_classification {m n dk dv : ℕ} [NeZero n]
    (Q : Matrix (Fin m) (Fin dk) ℝ) (K : Matrix (Fin n) (Fin dk) ℝ)
    (V : Matrix (Fin n) (Fin dv) ℝ) (mask : Matrix (Fin m) (Fin n) ℝ) :
    ((∃ i j, mask i j < -10000) →
      MaskedAttn107.masked_attention Q K V (some mask) =
        stableSoftmax (MaskedAttn107.scaled_dot_product Q K + mask) * V) ∧
    ((¬ ∃ i j, mask i j < -10000) →
      MaskedAttn107.masked_attention Q K V (some mask) =
        stableSoftmax (Matrix.of fun i j =>
          if mask i j = 0 then (-1000000000 : ℝ)
          else MaskedAttn107.scaled_dot_product Q K i j) * V) := by
  have hm : MaskedAttn107.masked_attention Q K V (some mask) =
      stableSoftmax (MaskedAttn107.applyMask (MaskedAttn107.scaled_dot_product Q K) mask) * V :=
    rfl
  constructor
  · intro hadd
    rw [hm]
    unfold MaskedAttn107.applyMask
    rw [if_pos hadd]
  · intro hbin
    rw [hm]
    unfold MaskedAttn107.applyMask
    rw [if_neg hbin]

/-- Witness for C3: the 1×1 mask `[[-20000]]` has an entry below `-1e4`,
so it is applied additively. -/
theorem claim_C3_witness :
    MaskedAttn107.masked_attention !![(1:ℝ)] !![(1:ℝ)] !![(1:ℝ)] (some !![(-20000:ℝ)]) =
      stableSoftmax (MaskedAttn107.scaled_dot_product !![(1:ℝ)] !![(1:ℝ)] + !![(-20000:ℝ)]) *
        !![(1:ℝ)] :=
  (claim_C3_mask_classification !![(1:ℝ)] !![(1:ℝ)] !![(1:ℝ)] !![(-20000:ℝ)]).1
    ⟨0, 0, by show (-20000:ℝ) < -10000; norm_num⟩

/-- Claim C10: calling the masked attention of file 107 with no mask
(`mask = None`) produces exactly the unmasked single-head self-attention
of file 53 on the same inputs: both compute the scaled scores, the stable
row softmax, and the weighted sum identically. -/
theorem claim_C10_no_mask_equivalence {m n dk dv : ℕ} [NeZero n]
    (Q : Matrix (Fin m) (Fin dk) ℝ) (K : Matrix (Fin n) (Fin dk) ℝ)
    (V : Matrix (Fin n) (Fin dv) ℝ) :
    MaskedAttn107.masked_attention Q K V none = SelfAttn53.self_attention Q K V := rfl

/-- Witness for C10 at `Q = K = V = [[1]]`. -/
theorem claim_C10_witness :
    MaskedAttn107.masked_attention !![(1:ℝ)] !![(1:ℝ)] !![(1:ℝ)] none =
      SelfAttn53.self_attention !![(1:ℝ)] !![(1:ℝ)] !![(1:ℝ)] :=
  claim_C10_no_mask_equivalence !![(1:ℝ)] !![(1:ℝ)] !![(1:ℝ)]

/-! ## Claim C9: additive (0 or -1e9) mask vs binary (1 or 0) mask

The two mask encodings of the same allowed-position set, as described by
the claim. -/

/-- The additive mask of claim C9: value 0 at allowed positions and `-1e9`
at forbidden positions. -/
noncomputable def additiveMaskOf {m n : ℕ} (allowed : Fin m → Finset (Fin n)) :
    Matrix (Fin m) (Fin n) ℝ :=
  Matrix.of fun i j => if j ∈ allowed i then 0 else -1000000000

/-- The binary mask of claim C9: value 1 at allowed positions and 0 at
forbidden positions. -/
noncomputable def binaryMaskOf {m n : ℕ} (allowed : Fin m → Finset (Fin n)) :
    Matrix (Fin m) (Fin n) ℝ :=
  Matrix.of fun i j => if j ∈ allowed i then 1 else 0

lemma rowMax_eq {n : ℕ} [NeZero n] (v : Fin n → ℝ) (j0 : Fin n)
    (hmax : ∀ k, v k ≤ v j0) : rowMax v = v j0 := by
  unfold rowMax
  apply le_antisymm
  · exact Finset.sup'_le _ _ fun k _ => hmax k
  · exact Finset.le_sup' v (Finset.mem_univ j0)

/-- Counterexample to claim C9 as stated.  Take `Q = [[1]]`,
`K = [[10],[0]]`, `V = [[100],[0]]` and let every position be allowed.
The claim's additive mask is then the all-zero matrix, which the
threshold heuristic (no entry below `-1e4`) classifies as *binary*; all
its entries equal 0, so every score is rewritten to `-1e9` and the output
degenerates to the uniform average 50.  The binary mask (all ones) leaves
the scores unchanged and yields `100/(1+e^{-10}) > 66`.  The two outputs
differ by more than 16, far beyond the claimed `1e-4` tolerance. -/
theorem claim_C9_counterexample :
    ¬ (|MaskedAttn107.masked_attention !![(1:ℝ)] !![(10:ℝ); 0] !![(100:ℝ); 0]
          (some (additiveMaskOf fun _ : Fin 1 => (Finset.univ : Finset (Fin 2)))) 0 0 -
        MaskedAttn107.masked_attention !![(1:ℝ)] !![(10:ℝ); 0] !![(100:ℝ); 0]
          (some (binaryMaskOf fun _ : Fin 1 => (Finset.univ : Finset (Fin 2)))) 0 0| ≤
      1 / 10000) := by
  have hMadd : ∀ (a : Fin 1) (b : Fin 2),
      additiveMaskOf (fun _ : Fin 1 => (Finset.univ : Finset (Fin 2))) a b = 0 := by
    intro a b
    simp [additiveMaskOf]
  have hMbin : ∀ (a : Fin 1) (b : Fin 2),
      binaryMaskOf (fun _ : Fin 1 => (Finset.univ : Finset (Fin 2))) a b = 1 := by
    intro a b
    simp [binaryMaskOf]
  -- the scaled scores: S 0 0 = 10, S 0 1 = 0
  have hsqrt : Real.sqrt ((1:ℕ):ℝ) = 1 := by norm_num
  have hS00 : MaskedAttn107.scaled_dot_product !![(1:ℝ)] !![(10:ℝ); 0] 0 0 = 10 := by
    show (!![(1:ℝ)] * (!![(10:ℝ); 0]).transpose) 0 0 / Real.sqrt ((1:ℕ):ℝ) = 10
    rw [Matrix.mul_apply, Fin.sum_univ_one, Matrix.transpose_apply]
    norm_num
  have hS01 : MaskedAttn107.scaled_dot_product !![(1:ℝ)] !![(10:ℝ); 0] 0 1 = 0 := by
    show (!![(1:ℝ)] * (!![(10:ℝ); 0]).transpose) 0 1 / Real.sqrt ((1:ℕ):ℝ) = 0
    rw [Matrix.mul_apply, Fin.sum_univ_one, Matrix.transpose_apply]
    norm_num
  -- additive-mask side: classified binary, every score rewritten to -1e9,
  -- output is the uniform average 50
  have hnotadd : ¬ ∃ a b,
      additiveMaskOf (fun _ : Fin 1 => (Finset.univ : Finset (Fin 2))) a b < -10000 := by
    rintro ⟨a, b, hab⟩
    rw [hMadd a b] at hab
    norm_num at hab
  have happlyA : MaskedAttn107.applyMask
      (MaskedAttn107.scaled_dot_product !![(1:ℝ)] !![(10:ℝ); 0])
      (additiveMaskOf fun _ : Fin 1 => (Finset.univ : Finset (Fin 2))) =
      Matrix.of fun _ _ => (-1000000000 : ℝ) := by
    unfold MaskedAttn107.applyMask
    rw [if_neg hnotadd]
    ext a b
    simp [hMadd a b]
  have hrowA : stableSoftmaxRow (fun _ : Fin 2 => (-1000000000 : ℝ)) = fun _ => 1/2 := by
    funext b
    unfold stableSoftmaxRow
    rw [rowMax_eq (fun _ : Fin 2 => (-1000000000 : ℝ)) 0 (fun k => le_refl _)]
    rw [Fin.sum_univ_two]
    norm_num
  have houtA : MaskedAttn107.masked_attention !![(1:ℝ)] !![(10:ℝ); 0] !![(100:ℝ); 0]
      (some (additiveMaskOf fun _ : Fin 1 => (Finset.univ : Finset (Fin 2)))) 0 0 = 50 := by
    have hm : MaskedAttn107.masked_attention !![(1:ℝ)] !![(10:ℝ); 0] !![(100:ℝ); 0]
        (some (additiveMaskOf fun _ : Fin 1 => (Finset.univ : Finset (Fin 2)))) =
        stableSoftmax (MaskedAttn107.applyMask
          (MaskedAttn107.scaled_dot_product !![(1:ℝ)] !![(10:ℝ); 0])
          (additiveMaskOf fun _ : Fin 1 => (Finset.univ : Finset (Fin 2)))) * !![(100:ℝ); 0] :=
      rfl
    rw [hm, happlyA, Matrix.mul_apply, Fin.sum_univ_two]
    have hW : ∀ b : Fin 2,
        stableSoftmax (Matrix.of fun (_ : Fin 1) (_ : Fin 2) => (-1000000000 : ℝ)) 0 b = 1/2 := by
      intro b
      show stableSoftmaxRow (fun _ : Fin 2 => (-1000000000 : ℝ)) b = 1/2
      rw [hrowA]
    rw [hW 0, hW 1]
    norm_num
  -- binary-mask side: classified binary, all entries 1, scores unchanged
  have hnotbin : ¬ ∃ a b,
      binaryMaskOf (fun _ : Fin 1 => (Finset.univ : Finset (Fin 2))) a b < -10000 := by
    rintro ⟨a, b, hab⟩
    rw [hMbin a b] at hab
    norm_num at hab
  have happlyB : MaskedAttn107.applyMask
      (MaskedAttn107.scaled_dot_product !![(1:ℝ)] !![(10:ℝ); 0])
      (binaryMaskOf fun _ : Fin 1 => (Finset.univ : Finset (Fin 2))) =
      MaskedAttn107.scaled_dot_product !![(1:ℝ)] !![(10:ℝ); 0] := by
    unfold MaskedAttn107.applyMask
    rw [if_neg hnotbin]
    ext a b
    simp [hMbin a b]
  have hexp10 : (2:ℝ) ≤ Real.exp 10 := by
    have h1 := Real.add_one_le_exp (1:ℝ)
    have h2 : Real.exp 1 ≤ Real.exp 10 := Real.exp_le_exp.mpr (by norm_num)
    linarith
  have hexpneg : Real.exp (-10 : ℝ) ≤ 1/2 := by
    rw [Real.exp_neg, ← one_div]
    exact one_div_le_one_div_of_le (by norm_num) hexp10
  have hrowmaxB : rowMax (MaskedAttn107.scaled_dot_product !![(1:ℝ)] !![(10:ℝ); 0] 0) = 10 := by
    have hmax : ∀ k : Fin 2, MaskedAttn107.scaled_dot_product !![(1:ℝ)] !![(10:ℝ); 0] 0 k ≤
        MaskedAttn107.scaled_dot_product !![(1:ℝ)] !![(10:ℝ); 0] 0 0 := by
      rw [Fin.forall_fin_two]
      constructor
      · exact le_refl _
      · rw [hS01, hS00]; norm_num
    have h := rowMax_eq (MaskedAttn107.scaled_dot_product !![(1:ℝ)] !![(10:ℝ); 0] 0) 0 hmax
    rw [hS00] at h
    exact h
  have houtB : (200:ℝ)/3 ≤ MaskedAttn107.masked_attention !![(1:ℝ)] !![(10:ℝ); 0] !![(100:ℝ); 0]
      (some (binaryMaskOf fun _ : Fin 1 => (Finset.univ : Finset (Fin 2)))) 0 0 := by
    have hm : MaskedAttn107.masked_attention !![(1:ℝ)] !![(10:ℝ); 0] !![(100:ℝ); 0]
        (some (binaryMaskOf fun _ : Fin 1 => (Finset.univ : Finset (Fin 2)))) =
        stableSoftmax (MaskedAttn107.applyMask
          (MaskedAttn107.scaled_dot_product !![(1:ℝ)] !![(10:ℝ); 0])
          (binaryMaskOf fun _ : Fin 1 => (Finset.univ : Finset (Fin 2)))) * !![(100:ℝ); 0] :=
      rfl
    rw [hm, happlyB, Matrix.mul_apply, Fin.sum_univ_two]
    have hw0 : stableSoftmax (MaskedAttn107.scaled_dot_product !![(1:ℝ)] !![(10:ℝ); 0]) 0 0 =
        1 / (1 + Real.exp (-10)) := by
      show stableSoftmaxRow _ 0 = _
      unfold stableSoftmaxRow
      rw [hrowmaxB, Fin.sum_univ_two, hS00, hS01]
      norm_num
    have hw1 : 0 ≤ stableSoftmax (MaskedAttn107.scaled_dot_product !![(1:ℝ)] !![(10:ℝ); 0]) 0 1 :=
      stableSoftmaxRow_nonneg _ 1
    have hV0 : (!![(100:ℝ); 0]) 0 0 = 100 := by simp
    have hV1 : (!![(100:ℝ); 0]) 1 0 = 0 := by simp
    rw [hw0, hV0, hV1]
    have hden : 0 < 1 + Real.exp (-10 : ℝ) := by positivity
    have hden32 : 1 + Real.exp (-10 : ℝ) ≤ 3/2 := by linarith
    have : (200:ℝ)/3 ≤ 1 / (1 + Real.exp (-10)) * 100 := by
      rw [div_mul_eq_mul_div, one_mul]
      calc (200:ℝ)/3 = 100 / (3/2) := by norm_num
      _ ≤ 100 / (1 + Real.exp (-10)) := div_le_div_of_nonneg_left (by norm_num) hden hden32
    linarith
  intro habs
  rw [houtA] at habs
  have h1 := (abs_le.mp habs).1
  linarith

/-! ## Quantitative softmax perturbation bound for the amended claim C9 -/

lemma exp_combine (a b : ℝ) : Real.exp a * Real.exp b = Real.exp (a + b) :=
  (Real.exp_add a b).symm

/-- If two score rows agree on an allowed set `A` and both are at most
`-1e9 + 10` outside it (the additive row is `s - 1e9`, the binary row is
the constant `-1e9`), their softmax rows differ entrywise by at most
`22·exp(40 - 1e9)`, provided the unmasked scores are bounded by 10 in
absolute value and `A` is nonempty. -/
lemma softmax_forbidden_perturbation {n : ℕ} [NeZero n] (s : Fin n → ℝ) (A : Finset (Fin n))
    (hA : A.Nonempty) (hs : ∀ j, |s j| ≤ 10) (hn : n ≤ 10) (j : Fin n) :
    |stableSoftmaxRow (fun k => s k + if k ∈ A then 0 else -1000000000) j -
      stableSoftmaxRow (fun k => if k ∈ A then s k else -1000000000) j| ≤
      22 * Real.exp (40 - 1000000000) := by
  rw [stableSoftmaxRow_eq_spec, stableSoftmaxRow_eq_spec]
  set u : Fin n → ℝ := fun k => s k + if k ∈ A then 0 else -1000000000 with hu
  set t : Fin n → ℝ := fun k => if k ∈ A then s k else -1000000000 with ht
  set Du : ℝ := ∑ k, Real.exp (u k) with hDu
  set Dt : ℝ := ∑ k, Real.exp (t k) with hDt
  have hu_mem : ∀ k ∈ A, u k = s k := by
    intro k hk
    rw [hu]
    simp [hk]
  have ht_mem : ∀ k ∈ A, t k = s k := by
    intro k hk
    rw [ht]
    simp [hk]
  have hu_not : ∀ k, k ∉ A → u k = s k - 1000000000 := by
    intro k hk
    rw [hu]
    simp only [if_neg hk]
    ring
  have ht_not : ∀ k, k ∉ A → t k = -1000000000 := by
    intro k hk
    rw [ht]
    simp [hk]
  have hDu0 : (0:ℝ) < Du := by rw [hDu]; exact sum_exp_pos u
  have hDt0 : (0:ℝ) < Dt := by rw [hDt]; exact sum_exp_pos t
  obtain ⟨j0, hj0⟩ := hA
  have hDu_ge : Real.exp (-10 : ℝ) ≤ Du := by
    rw [hDu]
    calc Real.exp (-10 : ℝ) ≤ Real.exp (u j0) := by
          apply Real.exp_le_exp.mpr
          rw [hu_mem j0 hj0]
          exact (abs_le.mp (hs j0)).1
    _ ≤ ∑ k, Real.exp (u k) :=
          Finset.single_le_sum (fun k _ => (Real.exp_pos (u k)).le) (Finset.mem_univ j0)
  have hDt_ge : Real.exp (-10 : ℝ) ≤ Dt := by
    rw [hDt]
    calc Real.exp (-10 : ℝ) ≤ Real.exp (t j0) := by
          apply Real.exp_le_exp.mpr
          rw [ht_mem j0 hj0]
          exact (abs_le.mp (hs j0)).1
    _ ≤ ∑ k, Real.exp (t k) :=
          Finset.single_le_sum (fun k _ => (Real.exp_pos (t k)).le) (Finset.mem_univ j0)
  have hDuDt : Real.exp (-20 : ℝ) ≤ Du * Dt := by
    have hmm : Real.exp (-10 : ℝ) * Real.exp (-10 : ℝ) ≤ Du * Dt :=
      mul_le_mul hDu_ge hDt_ge (Real.exp_pos _).le (lt_of_lt_of_le (Real.exp_pos _) hDu_ge).le
    calc Real.exp (-20 : ℝ) = Real.exp (-10 : ℝ) * Real.exp (-10 : ℝ) := by
          rw [exp_combine]; norm_num
    _ ≤ Du * Dt := hmm
  have hDdiff : |Du - Dt| ≤ 20 * Real.exp (10 - 1000000000) := by
    rw [hDu, hDt, ← Finset.sum_sub_distrib]
    calc |∑ k, (Real.exp (u k) - Real.exp (t k))|
        ≤ ∑ k, |Real.exp (u k) - Real.exp (t k)| := Finset.abs_sum_le_sum_abs _ _
    _ ≤ ∑ _k : Fin n, 2 * Real.exp (10 - 1000000000) := by
        apply Finset.sum_le_sum
        intro k _
        by_cases hk : k ∈ A
        · rw [hu_mem k hk, ht_mem k hk, sub_self, abs_zero]
          positivity
        · rw [hu_not k hk, ht_not k hk]
          have h1 : Real.exp (s k - 1000000000) ≤ Real.exp (10 - 1000000000) :=
            Real.exp_le_exp.mpr (by linarith [(abs_le.mp (hs k)).2])
          have h2 : Real.exp (-1000000000 : ℝ) ≤ Real.exp (10 - 1000000000) :=
            Real.exp_le_exp.mpr (by norm_num)
          have h3 : |Real.exp (s k - 1000000000) - Real.exp (-1000000000)| ≤
              Real.exp (s k - 1000000000) + Real.exp (-1000000000) := by
            have h4 := abs_sub (Real.exp (s k - 1000000000)) (Real.exp (-1000000000 : ℝ))
            rwa [abs_of_nonneg (Real.exp_pos _).le, abs_of_nonneg (Real.exp_pos _).le] at h4
          linarith
    _ = (n : ℝ) * (2 * Real.exp (10 - 1000000000)) := by
        rw [Finset.sum_const, Finset.card_univ, Fintype.card_fin, nsmul_eq_mul]
    _ ≤ 10 * (2 * Real.exp (10 - 1000000000)) := by
        apply mul_le_mul_of_nonneg_right _ (by positivity)
        exact_mod_cast hn
    _ = 20 * Real.exp (10 - 1000000000) := by ring
  show |Real.exp (u j) / Du - Real.exp (t j) / Dt| ≤ 22 * Real.exp (40 - 1000000000)
  by_cases hj : j ∈ A
  · rw [hu_mem j hj, ht_mem j hj]
    have hkey : Real.exp (s j) / Du - Real.exp (s j) / Dt =
        Real.exp (s j) * (Dt - Du) / (Du * Dt) := by
      field_simp
      ring
    rw [hkey, abs_div, abs_mul, abs_of_pos (mul_pos hDu0 hDt0), abs_of_pos (Real.exp_pos _)]
    have hnum : Real.exp (s j) * |Dt - Du| ≤
        Real.exp 10 * (20 * Real.exp (10 - 1000000000)) := by
      apply mul_le_mul (Real.exp_le_exp.mpr (abs_le.mp (hs j)).2) _ (abs_nonneg _)
        (Real.exp_pos _).le
      rw [abs_sub_comm]
      exact hDdiff
    have hexp_comb : Real.exp 10 * Real.exp (10 - 1000000000) * Real.exp 20 =
        Real.exp (40 - 1000000000) := by
      rw [exp_combine, exp_combine]
      norm_num
    calc Real.exp (s j) * |Dt - Du| / (Du * Dt)
        ≤ Real.exp 10 * (20 * Real.exp (10 - 1000000000)) / Real.exp (-20) :=
          div_le_div (by positivity) hnum (Real.exp_pos _) hDuDt
    _ = Real.exp 10 * (20 * Real.exp (10 - 1000000000)) * Real.exp 20 := by
          rw [Real.exp_neg, div_eq_mul_inv, inv_inv]
    _ = 20 * (Real.exp 10 * Real.exp (10 - 1000000000) * Real.exp 20) := by ring
    _ = 20 * Real.exp (40 - 1000000000) := by rw [hexp_comb]
    _ ≤ 22 * Real.exp (40 - 1000000000) := by
          have hp := (Real.exp_pos (40 - 1000000000 : ℝ)).le
          linarith
  · rw [hu_not j hj, ht_not j hj]
    have hhalf : Real.exp (10 - 1000000000 : ℝ) / Real.exp (-10 : ℝ) =
        Real.exp (20 - 1000000000) := by
      rw [Real.exp_neg, div_eq_mul_inv, inv_inv, exp_combine]
      norm_num
    have h1 : Real.exp (s j - 1000000000) / Du ≤ Real.exp (20 - 1000000000) := by
      calc Real.exp (s j - 1000000000) / Du
          ≤ Real.exp (10 - 1000000000) / Real.exp (-10 : ℝ) :=
            div_le_div (Real.exp_pos _).le
              (Real.exp_le_exp.mpr (by linarith [(abs_le.mp (hs j)).2]))
              (Real.exp_pos _) hDu_ge
      _ = Real.exp (20 - 1000000000) := hhalf
    have h2 : Real.exp (-1000000000 : ℝ) / Dt ≤ Real.exp (20 - 1000000000) := by
      calc Real.exp (-1000000000 : ℝ) / Dt
          ≤ Real.exp (10 - 1000000000) / Real.exp (-10 : ℝ) :=
            div_le_div (Real.exp_pos _).le (Real.exp_le_exp.mpr (by norm_num))
              (Real.exp_pos _) hDt_ge
      _ = Real.exp (20 - 1000000000) := hhalf
    have h3 : Real.exp (20 - 1000000000 : ℝ) ≤ Real.exp (40 - 1000000000) :=
      Real.exp_le_exp.mpr (by norm_num)
    have hp := (Real.exp_pos (40 - 1000000000 : ℝ)).le
    have h4 : |Real.exp (s j - 1000000000) / Du - Real.exp (-1000000000) / Dt| ≤
        Real.exp (s j - 1000000000) / Du + Real.exp (-1000000000) / Dt := by
      have h5 := abs_sub (Real.exp (s j - 1000000000) / Du) (Real.exp (-1000000000 : ℝ) / Dt)
      rwa [abs_of_nonneg (div_nonneg (Real.exp_pos _).le hDu0.le),
        abs_of_nonneg (div_nonneg (Real.exp_pos _).le hDt0.le)] at h5
    calc |Real.exp (s j - 1000000000) / Du - Real.exp (-1000000000) / Dt|
        ≤ Real.exp (s j - 1000000000) / Du + Real.exp (-1000000000) / Dt := h4
    _ ≤ Real.exp (20 - 1000000000) + Real.exp (20 - 1000000000) := add_le_add h1 h2
    _ ≤ 22 * Real.exp (40 - 1000000000) := by linarith

lemma exp_tail_small : 2200 * Real.exp (40 - 1000000000) ≤ 1 / 10000 := by
  have h1 : Real.exp (40 - 1000000000 : ℝ) ≤ Real.exp (-19) := Real.exp_le_exp.mpr (by norm_num)
  have h3 : (2.7:ℝ) ^ (19:ℕ) ≤ Real.exp 19 := by
    calc (2.7:ℝ) ^ (19:ℕ) ≤ (Real.exp 1) ^ (19:ℕ) :=
          pow_le_pow_left (by norm_num) (le_of_lt (lt_of_le_of_lt (by norm_num) Real.exp_one_gt_d9)) 19
    _ = Real.exp 19 := by rw [← Real.exp_nat_mul]; norm_num
  have h6 : (1:ℝ) / Real.exp 19 ≤ 1 / (2.7:ℝ) ^ (19:ℕ) :=
    one_div_le_one_div_of_le (by positivity) h3
  have h7 : Real.exp (-19 : ℝ) = 1 / Real.exp 19 := by rw [Real.exp_neg, one_div]
  calc 2200 * Real.exp (40 - 1000000000)
      ≤ 2200 * (1 / (2.7:ℝ) ^ (19:ℕ)) := by
        apply mul_le_mul_of_nonneg_left _ (by norm_num)
        calc Real.exp (40 - 1000000000 : ℝ) ≤ Real.exp (-19) := h1
        _ = 1 / Real.exp 19 := h7
        _ ≤ 1 / (2.7:ℝ) ^ (19:ℕ) := h6
  _ ≤ 1 / 10000 := by norm_num

/-- Claim C9 (amended): the additive (0 at allowed, -1e9 at forbidden) and
binary (1 at allowed, 0 at forbidden) masks over the same allowed
positions produce outputs agreeing to within 1e-4, PROVIDED at least one
position is forbidden (otherwise the all-zero additive mask is
misclassified as binary — see the counterexample), every row keeps at
least one allowed position, the scaled scores and the entries of `V` are
bounded by 10 in absolute value, and `n ≤ 10`. -/
theorem claim_C9_mask_equivalence_amended {m n dk dv : ℕ} [NeZero n]
    (Q : Matrix (Fin m) (Fin dk) ℝ) (K : Matrix (Fin n) (Fin dk) ℝ)
    (V : Matrix (Fin n) (Fin dv) ℝ) (allowed : Fin m → Finset (Fin n))
    (hforb : ∃ i j, j ∉ allowed i)
    (hrow : ∀ i, (allowed i).Nonempty)
    (hS : ∀ i j, |MaskedAttn107.scaled_dot_product Q K i j| ≤ 10)
    (hV : ∀ j d, |V j d| ≤ 10)
    (hn : n ≤ 10) (i : Fin m) (d : Fin dv) :
    |MaskedAttn107.masked_attention Q K V (some (additiveMaskOf allowed)) i d -
      MaskedAttn107.masked_attention Q K V (some (binaryMaskOf allowed)) i d| ≤ 1 / 10000 := by
  have hmA : MaskedAttn107.masked_attention Q K V (some (additiveMaskOf allowed)) =
      stableSoftmax (MaskedAttn107.applyMask (MaskedAttn107.scaled_dot_product Q K)
        (additiveMaskOf allowed)) * V := rfl
  have hmB : MaskedAttn107.masked_attention Q K V (some (binaryMaskOf allowed)) =
      stableSoftmax (MaskedAttn107.applyMask (MaskedAttn107.scaled_dot_product Q K)
        (binaryMaskOf allowed)) * V := rfl
  have haddclass : ∃ a b, additiveMaskOf allowed a b < -10000 := by
    obtain ⟨i0, j0, hij0⟩ := hforb
    refine ⟨i0, j0, ?_⟩
    show (if j0 ∈ allowed i0 then (0:ℝ) else -1000000000) < -10000
    rw [if_neg hij0]
    norm_num
  have hbinclass : ¬ ∃ a b, binaryMaskOf allowed a b < -10000 := by
    rintro ⟨a, b, hab⟩
    have hval : binaryMaskOf allowed a b = if b ∈ allowed a then (1:ℝ) else 0 := rfl
    rw [hval] at hab
    by_cases hmem : b ∈ allowed a
    · rw [if_pos hmem] at hab
      norm_num at hab
    · rw [if_neg hmem] at hab
      norm_num at hab
  have happA : MaskedAttn107.applyMask (MaskedAttn107.scaled_dot_product Q K)
      (additiveMaskOf allowed) =
      MaskedAttn107.scaled_dot_product Q K + additiveMaskOf allowed := by
    unfold MaskedAttn107.applyMask
    rw [if_pos haddclass]
  have happB : MaskedAttn107.applyMask (MaskedAttn107.scaled_dot_product Q K)
      (binaryMaskOf allowed) =
      Matrix.of fun a b => if binaryMaskOf allowed a b = 0 then (-1000000000:ℝ)
        else MaskedAttn107.scaled_dot_product Q K a b := by
    unfold MaskedAttn107.applyMask
    rw [if_neg hbinclass]
  rw [hmA, hmB, happA, happB, Matrix.mul_apply, Matrix.mul_apply, ← Finset.sum_sub_distrib]
  have hrowu : (MaskedAttn107.scaled_dot_product Q K + additiveMaskOf allowed) i =
      fun b => MaskedAttn107.scaled_dot_product Q K i b +
        if b ∈ allowed i then 0 else -1000000000 := by
    funext b
    simp [additiveMaskOf, Matrix.add_apply]
  have hrowt : (Matrix.of fun a b => if binaryMaskOf allowed a b = 0 then (-1000000000:ℝ)
      else MaskedAttn107.scaled_dot_product Q K a b) i =
      fun b => if b ∈ allowed i then MaskedAttn107.scaled_dot_product Q K i b
        else -1000000000 := by
    funext b
    simp only [Matrix.of_apply, binaryMaskOf]
    by_cases hb : b ∈ allowed i
    · simp [hb]
    · simp [hb]
  calc |∑ b, (stableSoftmax (MaskedAttn107.scaled_dot_product Q K + additiveMaskOf allowed) i b *
          V b d -
        stableSoftmax (Matrix.of fun a b => if binaryMaskOf allowed a b = 0 then (-1000000000:ℝ)
          else MaskedAttn107.scaled_dot_product Q K a b) i b * V b d)|
      ≤ ∑ b, |stableSoftmax (MaskedAttn107.scaled_dot_product Q K + additiveMaskOf allowed) i b *
          V b d -
        stableSoftmax (Matrix.of fun a b => if binaryMaskOf allowed a b = 0 then (-1000000000:ℝ)
          else MaskedAttn107.scaled_dot_product Q K a b) i b * V b d| :=
      Finset.abs_sum_le_sum_abs _ _
  _ ≤ ∑ _b : Fin n, (22 * Real.exp (40 - 1000000000)) * 10 := by
      apply Finset.sum_le_sum
      intro b _
      rw [← sub_mul, abs_mul]
      apply mul_le_mul _ (hV b d) (abs_nonneg _) (by positivity)
      have hXu : stableSoftmax (MaskedAttn107.scaled_dot_product Q K + additiveMaskOf allowed) i b =
          stableSoftmaxRow (fun k => MaskedAttn107.scaled_dot_product Q K i k +
            if k ∈ allowed i then 0 else -1000000000) b := by
        show stableSoftmaxRow ((MaskedAttn107.scaled_dot_product Q K + additiveMaskOf allowed) i) b = _
        rw [hrowu]
      have hXt : stableSoftmax (Matrix.of fun a b =>
          if binaryMaskOf allowed a b = 0 then (-1000000000:ℝ)
          else MaskedAttn107.scaled_dot_product Q K a b) i b =
          stableSoftmaxRow (fun k => if k ∈ allowed i
            then MaskedAttn107.scaled_dot_product Q K i k else -1000000000) b := by
        show stableSoftmaxRow ((Matrix.of fun a b =>
          if binaryMaskOf allowed a b = 0 then (-1000000000:ℝ)
          else MaskedAttn107.scaled_dot_product Q K a b) i) b = _
        rw [hrowt]
      rw [hXu, hXt]
      exact softmax_forbidden_perturbation (fun k => MaskedAttn107.scaled_dot_product Q K i k)
        (allowed i) (hrow i) (fun k => hS i k) hn b
  _ = (n : ℝ) * ((22 * Real.exp (40 - 1000000000)) * 10) := by
      rw [Finset.sum_const, Finset.card_univ, Fintype.card_fin, nsmul_eq_mul]
  _ ≤ 10 * ((22 * Real.exp (40 - 1000000000)) * 10) := by
      apply mul_le_mul_of_nonneg_right _ (by positivity)
      exact_mod_cast hn
  _ = 2200 * Real.exp (40 - 1000000000) := by ring
  _ ≤ 1 / 10000 := exp_tail_small

/-- Witness for the amended C9 at `Q = [[0]]`, `K = V = [[0],[0]]`,
with position 0 allowed and position 1 forbidden in the single row. -/
theorem claim_C9_witness :
    |MaskedAttn107.masked_attention (0 : Matrix (Fin 1) (Fin 1) ℝ)
        (0 : Matrix (Fin 2) (Fin 1) ℝ) (0 : Matrix (Fin 2) (Fin 1) ℝ)
        (some (additiveMaskOf fun _ : Fin 1 => ({0} : Finset (Fin 2)))) 0 0 -
      MaskedAttn107.masked_attention (0 : Matrix (Fin 1) (Fin 1) ℝ)
        (0 : Matrix (Fin 2) (Fin 1) ℝ) (0 : Matrix (Fin 2) (Fin 1) ℝ)
        (some (binaryMaskOf fun _ : Fin 1 => ({0} : Finset (Fin 2)))) 0 0| ≤ 1 / 10000 :=
  claim_C9_mask_equivalence_amended 0 0 0 (fun _ => {0})
    ⟨0, 1, by decide⟩ (fun _ => Finset.singleton_nonempty 0)
    (by
      intro i j
      show |((0 : Matrix (Fin 1) (Fin 1) ℝ) * (0 : Matrix (Fin 2) (Fin 1) ℝ).transpose) i j /
        Real.sqrt ((1:ℕ):ℝ)| ≤ 10
      rw [Matrix.zero_mul, Matrix.zero_apply, zero_div]
      norm_num)
    (by
      intro j d
      rw [Matrix.zero_apply]
      norm_num)
    (by norm_num) 0 0

/-! ## Untyped numpy shape model (for the error-handling claim C8)

`src/numpy/107-Implement Masked Self-Attention.py` over raw numpy arrays,
modelled as lists of rows, with numpy's RUNTIME shape semantics: `np.dot`
raises on inner-dimension disagreement, in-place `+=` broadcasts a mask
whose dimensions are each equal to the score dimension or 1 and raises
otherwise, and `np.where` likewise broadcasts.  The dependently-typed
model above cannot express these dynamic failures. -/

namespace NumpyModel

/-- A numpy 2-D float array as a list of rows. -/
abbrev NMat : Type := List (List ℝ)

/-- Row count (`A.shape[0]`). -/
def nrows (A : NMat) : ℕ := A.length

/-- Column count (`A.shape[1]`, read off the first row — numpy arrays are
rectangular, so every row has this length). -/
def ncols (A : NMat) : ℕ := (A.headD []).length

/-- Entry access (in-range indices). -/
noncomputable def entry (A : NMat) (i j : ℕ) : ℝ := (A.getD i []).getD j 0

/-- Exception-propagating sequencing of the numpy calls. -/
def bindE {α β : Type} (x : Except String α) (f : α → Except String β) : Except String β :=
  match x with
  | Except.error e => Except.error e
  | Except.ok a => f a

lemma bindE_ok {α β : Type} (a : α) (f : α → Except String β) :
    bindE (Except.ok a) f = f a := rfl

lemma bindE_err {α β : Type} (e : String) (f : α → Except String β) :
    bindE (Except.error e) f = Except.error e := rfl

/-- `np.dot` for 2-D arrays: ValueError (spec taxonomy: ShapeMismatch)
unless the contracted dimensions agree. -/
noncomputable def dot (A B : NMat) : Except String NMat :=
  if ncols A = nrows B then
    Except.ok ((List.range (nrows A)).map fun i => (List.range (ncols B)).map fun j =>
      ∑ k in Finset.range (ncols A), entry A i k * entry B k j)
  else Except.error "ShapeMismatch"

/-- `A.T`. -/
noncomputable def transpose (A : NMat) : NMat :=
  (List.range (ncols A)).map fun j => (List.range (nrows A)).map fun i => entry A i j

/-- Line 42's scaling: divide every entry by `sqrt(d_k)`. -/
noncomputable def scaleBy (dk : ℕ) (A : NMat) : NMat :=
  A.map fun r => r.map fun x => x / Real.sqrt (dk : ℝ)

/-- Line 47's test `np.any(mask < -1e4)`. -/
def anyLtThreshold (M : NMat) : Prop := ∃ r ∈ M, ∃ x ∈ r, x < -10000

noncomputable instance anyLtThreshold_dec (M : NMat) : Decidable (anyLtThreshold M) := by
  unfold anyLtThreshold
  exact inferInstance

/-- Line 51's in-place `scaled_dot_product += mask`, with numpy in-place
broadcasting: each dimension of `M` must equal the corresponding dimension
of `S` or be 1, otherwise ValueError. -/
noncomputable def addInPlace (S M : NMat) : Except String NMat :=
  if (nrows M = nrows S ∨ nrows M = 1) ∧ (ncols M = ncols S ∨ ncols M = 1) then
    Except.ok ((List.range (nrows S)).map fun i => (List.range (ncols S)).map fun j =>
      entry S i j + entry M (if nrows M = 1 then 0 else i) (if ncols M = 1 then 0 else j))
  else Except.error "ShapeMismatch"

/-- One broadcast dimension of `np.where`. -/
def bdim (a b : ℕ) : Except String ℕ :=
  if a = b then Except.ok a
  else if a = 1 then Except.ok b
  else if b = 1 then Except.ok a
  else Except.error "ShapeMismatch"

/-- Line 55's `np.where(mask == 0, -1e9, scaled_dot_product)`, with numpy
two-way broadcasting of `mask` against the scores. -/
noncomputable def whereZero (M S : NMat) : Except String NMat :=
  bindE (bdim (nrows M) (nrows S)) fun r =>
  bindE (bdim (ncols M) (ncols S)) fun c =>
  Except.ok ((List.range r).map fun i => (List.range c).map fun j =>
    if entry M (if nrows M = 1 then 0 else i) (if ncols M = 1 then 0 else j) = 0
    then (-1000000000 : ℝ)
    else entry S (if nrows S = 1 then 0 else i) (if ncols S = 1 then 0 else j))

/-- Lines 44-55: the optional mask step. -/
noncomputable def applyMaskNp (S : NMat) (mask : Option NMat) : Except String NMat :=
  match mask with
  | none => Except.ok S
  | some M => if anyLtThreshold M then addInPlace S M else whereZero M S

/-- Maximum of a row (`np.max` along the last axis). -/
noncomputable def rmax : List ℝ → ℝ
  | [] => 0
  | x :: xs => xs.foldl max x

/-- Line 60: `np.exp(S - np.max(S, axis=-1, keepdims=True))`; numpy raises
on an empty reduction axis. -/
noncomputable def expShift (S : NMat) : Except String NMat :=
  if ncols S = 0 then Except.error "zero-size array to reduction operation"
  else Except.ok (S.map fun r => r.map fun x => Real.exp (x - rmax r))

/-- Line 63: divide every entry by its row sum. -/
noncomputable def rowNormalize (E : NMat) : NMat :=
  E.map fun r => r.map fun x => x / r.sum

/-- Lines 16-71: `masked_attention(Q, K, V, mask=None)` over raw numpy
arrays (`d_k = K.shape[-1]` is `ncols K`). -/
noncomputable def masked_attention (Q K V : NMat) (mask : Option NMat) :
    Except String NMat :=
  bindE (dot Q (transpose K)) fun QKT =>
  bindE (applyMaskNp (scaleBy (ncols K) QKT) mask) fun S2 =>
  bindE (expShift S2) fun E =>
  dot (rowNormalize E) V

/-! Shape bookkeeping lemmas. -/

lemma dot_ok {A B : NMat} (h : ncols A = nrows B) :
    dot A B = Except.ok ((List.range (nrows A)).map fun i => (List.range (ncols B)).map fun j =>
      ∑ k in Finset.range (ncols A), entry A i k * entry B k j) := by
  unfold dot
  rw [if_pos h]

lemma dot_err {A B : NMat} (h : ncols A ≠ nrows B) : dot A B = Except.error "ShapeMismatch" := by
  unfold dot
  rw [if_neg h]

lemma nrows_transpose (A : NMat) : nrows (transpose A) = ncols A := by
  unfold transpose nrows
  rw [List.length_map, List.length_range]

lemma ncols_rangeMap {r c : ℕ} (g : ℕ → ℕ → ℝ) (hr : 0 < r) :
    ncols ((List.range r).map fun i => (List.range c).map (g i)) = c := by
  obtain ⟨s, rfl⟩ : ∃ s, r = s + 1 := ⟨r - 1, by omega⟩
  rw [List.range_succ_eq_map, List.map_cons]
  show ((List.range c).map (g 0)).length = c
  rw [List.length_map, List.length_range]

lemma nrows_rangeMap {r c : ℕ} (g : ℕ → ℕ → ℝ) :
    nrows ((List.range r).map fun i => (List.range c).map (g i)) = r := by
  unfold nrows
  rw [List.length_map, List.length_range]

lemma ncols_transpose {A : NMat} (h : 0 < ncols A) : ncols (transpose A) = nrows A :=
  ncols_rangeMap (fun j i => entry A i j) h

lemma ncols_maprows (A : NMat) (g : List ℝ → ℝ → ℝ) :
    ncols (A.map fun r => r.map (g r)) = ncols A := by
  cases A with
  | nil => rfl
  | cons r t =>
    show (r.map (g r)).length = r.length
    rw [List.length_map]

lemma nrows_maprows (A : NMat) (g : List ℝ → ℝ → ℝ) :
    nrows (A.map fun r => r.map (g r)) = nrows A := by
  unfold nrows
  rw [List.length_map]

lemma expShift_ok {S : NMat} (h : ncols S ≠ 0) :
    expShift S = Except.ok (S.map fun r => r.map fun x => Real.exp (x - rmax r)) := by
  unfold expShift
  rw [if_neg h]

lemma addInPlace_err {S M : NMat}
    (h : ¬ ((nrows M = nrows S ∨ nrows M = 1) ∧ (ncols M = ncols S ∨ ncols M = 1))) :
    addInPlace S M = Except.error "ShapeMismatch" := by
  unfold addInPlace
  rw [if_neg h]

lemma addInPlace_ok {S M : NMat}
    (h : (nrows M = nrows S ∨ nrows M = 1) ∧ (ncols M = ncols S ∨ ncols M = 1)) :
    addInPlace S M = Except.ok ((List.range (nrows S)).map fun i =>
      (List.range (ncols S)).map fun j =>
        entry S i j + entry M (if nrows M = 1 then 0 else i)
          (if ncols M = 1 then 0 else j)) := by
  unfold addInPlace
  rw [if_pos h]

end NumpyModel

namespace NumpyModel

lemma applyMaskNp_none (S : NMat) : applyMaskNp S none = Except.ok S := rfl

lemma nrows_scaleBy (dk : ℕ) (A : NMat) : nrows (scaleBy dk A) = nrows A := by
  unfold scaleBy nrows
  rw [List.length_map]

lemma ncols_scaleBy (dk : ℕ) (A : NMat) : ncols (scaleBy dk A) = ncols A := by
  unfold scaleBy
  exact ncols_maprows A fun _ x => x / Real.sqrt (dk : ℝ)

lemma ncols_rowNormalize (E : NMat) : ncols (rowNormalize E) = ncols E := by
  unfold rowNormalize
  exact ncols_maprows E fun r x => x / r.sum

lemma dot_shape {A B : NMat} (h : ncols A = nrows B) (hA : 0 < nrows A) :
    ∃ R, dot A B = Except.ok R ∧ nrows R = nrows A ∧ ncols R = ncols B :=
  ⟨_, dot_ok h, nrows_rangeMap _, ncols_rangeMap _ hA⟩

lemma addInPlace_shape {S M : NMat}
    (h : (nrows M = nrows S ∨ nrows M = 1) ∧ (ncols M = ncols S ∨ ncols M = 1))
    (hS : 0 < nrows S) :
    ∃ R2, addInPlace S M = Except.ok R2 ∧ nrows R2 = nrows S ∧ ncols R2 = ncols S :=
  ⟨_, addInPlace_ok h, nrows_rangeMap _, ncols_rangeMap _ hS⟩

/-- Claim C8 (amended): the masked attention of file 107 raises
ShapeMismatch whenever `Q`'s column count disagrees with `K`'s (the
`Q·Kᵀ` contraction), and, with no mask supplied, whenever `K`'s row count
disagrees with `V`'s (the weights·V contraction).  But a mask whose shape
disagrees with `(m, n)` is NOT always rejected, contrary to the claim:
numpy broadcasting silently accepts an additive mask whose dimensions
each equal the corresponding score dimension or 1 (see the
counterexample); only a non-broadcastable additive mask raises
ShapeMismatch. -/
theorem claim_C8_shape_error_behavior (Q K V : NMat) (mask : Option NMat)
    (hq : 0 < nrows Q) (hk : 0 < nrows K) (hck : 0 < ncols K) :
    (ncols Q ≠ ncols K → masked_attention Q K V mask = Except.error "ShapeMismatch") ∧
    (ncols Q = ncols K → nrows K ≠ nrows V →
      masked_attention Q K V none = Except.error "ShapeMismatch") ∧
    (∀ M : NMat, ncols Q = ncols K → anyLtThreshold M →
      ¬ ((nrows M = nrows Q ∨ nrows M = 1) ∧ (ncols M = nrows K ∨ ncols M = 1)) →
      masked_attention Q K V (some M) = Except.error "ShapeMismatch") := by
  refine ⟨?_, ?_, ?_⟩
  · intro hne
    unfold masked_attention
    rw [dot_err (by rw [nrows_transpose]; exact hne), bindE_err]
  · intro h1 h2
    obtain ⟨R, hR, hRr, hRc⟩ :=
      @dot_shape Q (transpose K) (by rw [nrows_transpose]; exact h1) hq
    unfold masked_attention
    rw [hR]
    simp only [bindE_ok]
    rw [applyMaskNp_none]
    simp only [bindE_ok]
    have hcolS : ncols (scaleBy (ncols K) R) = nrows K := by
      rw [ncols_scaleBy, hRc, ncols_transpose hck]
    rw [expShift_ok (by rw [hcolS]; omega)]
    simp only [bindE_ok]
    apply dot_err
    rw [ncols_rowNormalize,
      ncols_maprows (scaleBy (ncols K) R) (fun r x => Real.exp (x - rmax r)), hcolS]
    exact h2
  · intro M h1 hany hbad
    obtain ⟨R, hR, hRr, hRc⟩ :=
      @dot_shape Q (transpose K) (by rw [nrows_transpose]; exact h1) hq
    unfold masked_attention
    rw [hR]
    simp only [bindE_ok]
    have happ0 : applyMaskNp (scaleBy (ncols K) R) (some M) =
        if anyLtThreshold M then addInPlace (scaleBy (ncols K) R) M
        else whereZero M (scaleBy (ncols K) R) := rfl
    rw [happ0, if_pos hany]
    have hrowS : nrows (scaleBy (ncols K) R) = nrows Q := by
      rw [nrows_scaleBy, hRr]
    have hcolS : ncols (scaleBy (ncols K) R) = nrows K := by
      rw [ncols_scaleBy, hRc, ncols_transpose hck]
    rw [addInPlace_err (by rw [hrowS, hcolS]; exact hbad), bindE_err]

/-- Counterexample to claim C8 as stated: take `Q = K = [[1],[1]]`
(shape 2×1, so the score matrix is 2×2, `m = n = 2`) and the additive
mask `[[-1e9, 0]]` of shape 1×2, which disagrees with the required
`(2, 2)`.  The operation does not raise: numpy's in-place `+=` silently
broadcasts the 1×2 mask over both score rows and the call returns a
result. -/
theorem claim_C8_counterexample :
    nrows [[(-1000000000:ℝ), 0]] ≠ nrows ([[(1:ℝ)], [1]] : NMat) ∧
    ∃ O, masked_attention [[(1:ℝ)], [1]] [[(1:ℝ)], [1]] [[(1:ℝ)], [2]]
        (some [[(-1000000000:ℝ), 0]]) = Except.ok O := by
  constructor
  · show (1:ℕ) ≠ 2
    norm_num
  · have h1 : ncols ([[(1:ℝ)], [1]] : NMat) =
        nrows (transpose ([[(1:ℝ)], [1]] : NMat)) := by
      rw [nrows_transpose]
    obtain ⟨R, hR, hRr, hRc⟩ := dot_shape h1 (by show (0:ℕ) < 2; norm_num)
    unfold masked_attention
    rw [hR]
    simp only [bindE_ok]
    have hany : anyLtThreshold [[(-1000000000:ℝ), 0]] :=
      ⟨[(-1000000000:ℝ), 0], by simp, -1000000000, by simp, by norm_num⟩
    have happ0 : applyMaskNp (scaleBy (ncols ([[(1:ℝ)], [1]] : NMat)) R)
        (some [[(-1000000000:ℝ), 0]]) =
        if anyLtThreshold [[(-1000000000:ℝ), 0]] then
          addInPlace (scaleBy (ncols ([[(1:ℝ)], [1]] : NMat)) R) [[(-1000000000:ℝ), 0]]
        else whereZero [[(-1000000000:ℝ), 0]] (scaleBy (ncols ([[(1:ℝ)], [1]] : NMat)) R) :=
      rfl
    rw [happ0, if_pos hany]
    have hrowS : nrows (scaleBy (ncols ([[(1:ℝ)], [1]] : NMat)) R) = 2 := by
      rw [nrows_scaleBy, hRr]
      rfl
    have hcolS : ncols (scaleBy (ncols ([[(1:ℝ)], [1]] : NMat)) R) = 2 := by
      rw [ncols_scaleBy, hRc, ncols_transpose (by show (0:ℕ) < 1; norm_num)]
      rfl
    obtain ⟨R2, hR2, hR2r, hR2c⟩ :=
      @addInPlace_shape (scaleBy (ncols ([[(1:ℝ)], [1]] : NMat)) R) [[(-1000000000:ℝ), 0]]
        ⟨Or.inr rfl, Or.inl hcolS.symm⟩ (by rw [hrowS]; norm_num)
    rw [hR2]
    simp only [bindE_ok]
    rw [expShift_ok (by rw [hR2c, hcolS]; norm_num)]
    simp only [bindE_ok]
    have hfin : ncols (rowNormalize (R2.map fun r => r.map fun x => Real.exp (x - rmax r))) =
        nrows ([[(1:ℝ)], [2]] : NMat) := by
      rw [ncols_rowNormalize, ncols_maprows R2 (fun r x => Real.exp (x - rmax r)), hR2c, hcolS]
      rfl
    rw [dot_ok hfin]
    exact ⟨_, rfl⟩

end NumpyModel

/-- Witness for the amended C8 at `Q = [[1]]`, `K = [[1, 1]]`: the inner
dimensions 1 and 2 disagree, so the call fails with ShapeMismatch. -/
theorem claim_C8_witness :
    NumpyModel.masked_attention [[(1:ℝ)]] [[(1:ℝ), 1]] [[(1:ℝ)]] none =
      Except.error "ShapeMismatch" :=
  (NumpyModel.claim_C8_shape_error_behavior [[(1:ℝ)]] [[(1:ℝ), 1]] [[(1:ℝ)]] none
      (by show (0:ℕ) < 1; norm_num) (by show (0:ℕ) < 1; norm_num)
      (by show (0:ℕ) < 2; norm_num)).1
    (by show (1:ℕ) ≠ 2; norm_num)
